import Mathlib

/-!
Verification development for a declarative infrastructure program that
provisions a managed GraphQL API (AWS AppSync) backed by a key-value table
(DynamoDB), together with an access role, a permission policy, an API key,
a data source and two resolvers.

The development embeds, faithfully to the Python source in
Desktop/work/2025/aws-py-appsync/__main__.py:

- a JSON document model (`JVal`) with a renderer and a fuel-based
  recursive-descent parser; the parser has a strict mode and a lenient mode
  that additionally tolerates a trailing comma before a closing brace or
  bracket, matching the tolerance of the resolver runtime of the provider;
- the request-mapping template texts of both resolvers, byte for byte, and
  the evaluation of the template substitution
  `$util.dynamodb.toDynamoDBJson($ctx.args.NAME)` performed by the resolver
  runtime at invocation time;
- the response-mapping template `$util.toJson($ctx.result)`, whose
  evaluation renders the storage result as JSON text which the runtime then
  parses back as the field value;
- the resource declarations of the program (table, role, policy,
  attachment, API, API key, data source, resolvers) as plain records, with
  deferred provider outputs (ARNs, generated names, the API id) modelled by
  the `Ref` type;
- a tokenizer and parser for the schema-definition-language subset used by
  the embedded GraphQL schema.
-/

/-- A JSON value: strings, integer numbers, booleans, null, arrays and
objects (objects keep their members as an ordered association list). -/
inductive JVal : Type where
  | str : String → JVal
  | num : Int → JVal
  | jbool : Bool → JVal
  | jnull : JVal
  | arr : List JVal → JVal
  | obj : List (String × JVal) → JVal

/-- JSON insignificant whitespace characters. -/
def isWs (c : Char) : Bool := c = ' ' || c = '\n' || c = '\t' || c = '\r'

/-- Drop leading JSON whitespace. -/
def skipWs : List Char → List Char
  | [] => []
  | c :: cs => if isWs c then skipWs cs else c :: cs

/-- Escape one character for inclusion in a JSON string literal. -/
def escapeChar (c : Char) : List Char :=
  if c = '"' then ['\\', '"']
  else if c = '\\' then ['\\', '\\']
  else if c = '\n' then ['\\', 'n']
  else if c = '\t' then ['\\', 't']
  else if c = '\r' then ['\\', 'r']
  else [c]

/-- Escape a character sequence for inclusion in a JSON string literal. -/
def escapeChars : List Char → List Char
  | [] => []
  | c :: cs => escapeChar c ++ escapeChars cs

mutual

/-- Render a JSON value as text (compact, no insignificant whitespace). -/
def renderJ : JVal → List Char
  | .str s => '"' :: escapeChars s.data ++ ['"']
  | .num i => (toString i).data
  | .jbool true => 't' :: 'r' :: 'u' :: 'e' :: []
  | .jbool false => 'f' :: 'a' :: 'l' :: 's' :: 'e' :: []
  | .jnull => 'n' :: 'u' :: 'l' :: 'l' :: []
  | .arr xs => '[' :: renderArr xs ++ [']']
  | .obj ms => '\x7b' :: renderMems ms ++ ['\x7d']

/-- Render the element list of a JSON array, comma separated. -/
def renderArr : List JVal → List Char
  | [] => []
  | [x] => renderJ x
  | x :: xs => renderJ x ++ ',' :: renderArr xs

/-- Render the member list of a JSON object, comma separated. -/
def renderMems : List (String × JVal) → List Char
  | [] => []
  | [(k, v)] => '"' :: escapeChars k.data ++ '"' :: ':' :: renderJ v
  | (k, v) :: ms => ('"' :: escapeChars k.data ++ '"' :: ':' :: renderJ v) ++ ',' :: renderMems ms

end

/-- Render a JSON value as a string. -/
def renderJson (v : JVal) : String := ⟨renderJ v⟩

/-- Parse the body of a JSON string literal (the opening quote already
consumed), decoding escape sequences, up to the closing quote. -/
def parseStrBody : List Char → Option (String × List Char)
  | [] => none
  | c :: cs =>
    if c = '"' then some ("", cs)
    else if c = '\\' then
      match cs with
      | [] => none
      | e :: cs2 =>
        match (if e = '"' then some '"' else if e = '\\' then some '\\'
               else if e = '/' then some '/' else if e = 'n' then some '\n'
               else if e = 't' then some '\t' else if e = 'r' then some '\r'
               else none) with
        | none => none
        | some d =>
          match parseStrBody cs2 with
          | some (s, rest) => some (⟨d :: s.data⟩, rest)
          | none => none
    else
      match parseStrBody cs with
      | some (s, rest) => some (⟨c :: s.data⟩, rest)
      | none => none

/-- Decimal digit test. -/
def isDigit (c : Char) : Bool := '0' ≤ c && c ≤ '9'

/-- Numeric value of a decimal digit character. -/
def digVal (c : Char) : Nat := c.toNat - 48

/-- Consume a run of decimal digits, accumulating their value. -/
def parseDigits : Nat → List Char → Nat × List Char
  | acc, [] => (acc, [])
  | acc, c :: cs => if isDigit c then parseDigits (acc * 10 + digVal c) cs else (acc, c :: cs)

mutual

/-- Fuel-based recursive-descent JSON parser. When `len` is true the parser
is lenient: it additionally accepts a trailing comma at the end of an object
or array, as the resolver runtime of the provider does; when `len` is false
the grammar is strict JSON. -/
def parseVal (len : Bool) : Nat → List Char → Option (JVal × List Char)
  | 0, _ => none
  | fuel + 1, s =>
    match skipWs s with
    | [] => none
    | '"' :: cs =>
      match parseStrBody cs with
      | some (k, rest) => some (.str k, rest)
      | none => none
    | '\x7b' :: cs =>
      match parseMembers len fuel cs with
      | some (ms, rest) => some (.obj ms, rest)
      | none => none
    | '[' :: cs =>
      match parseElems len fuel cs with
      | some (xs, rest) => some (.arr xs, rest)
      | none => none
    | 't' :: 'r' :: 'u' :: 'e' :: rest => some (.jbool true, rest)
    | 'f' :: 'a' :: 'l' :: 's' :: 'e' :: rest => some (.jbool false, rest)
    | 'n' :: 'u' :: 'l' :: 'l' :: rest => some (.jnull, rest)
    | '-' :: c :: cs =>
      if isDigit c then
        match parseDigits (digVal c) cs with
        | (n, rest) => some (.num (-(n : Int)), rest)
      else none
    | c :: cs =>
      if isDigit c then
        match parseDigits (digVal c) cs with
        | (n, rest) => some (.num (n : Int), rest)
      else none

/-- Parse an object body (the opening brace already consumed): either an
immediate closing brace or a nonempty member sequence. -/
def parseMembers (len : Bool) : Nat → List Char → Option (List (String × JVal) × List Char)
  | 0, _ => none
  | fuel + 1, s =>
    match skipWs s with
    | '\x7d' :: rest => some ([], rest)
    | s2 => parseMemberSeq len fuel s2

/-- Parse a nonempty sequence of object members up to the closing brace. -/
def parseMemberSeq (len : Bool) : Nat → List Char → Option (List (String × JVal) × List Char)
  | 0, _ => none
  | fuel + 1, s =>
    match skipWs s with
    | '"' :: cs =>
      match parseStrBody cs with
      | some (k, r1) =>
        match skipWs r1 with
        | ':' :: r2 =>
          match parseVal len fuel r2 with
          | some (v, r3) =>
            match skipWs r3 with
            | ',' :: r4 =>
              if len then
                match skipWs r4 with
                | '\x7d' :: r5 => some ([(k, v)], r5)
                | r4b =>
                  match parseMemberSeq len fuel r4b with
                  | some (ms, rest) => some ((k, v) :: ms, rest)
                  | none => none
              else
                match parseMemberSeq len fuel r4 with
                | some (ms, rest) => some ((k, v) :: ms, rest)
                | none => none
            | '\x7d' :: r4 => some ([(k, v)], r4)
            | _ => none
          | none => none
        | _ => none
      | none => none
    | _ => none

/-- Parse an array body (the opening bracket already consumed): either an
immediate closing bracket or a nonempty element sequence. -/
def parseElems (len : Bool) : Nat → List Char → Option (List JVal × List Char)
  | 0, _ => none
  | fuel + 1, s =>
    match skipWs s with
    | ']' :: rest => some ([], rest)
    | s2 => parseElemSeq len fuel s2

/-- Parse a nonempty sequence of array elements up to the closing bracket. -/
def parseElemSeq (len : Bool) : Nat → List Char → Option (List JVal × List Char)
  | 0, _ => none
  | fuel + 1, s =>
    match parseVal len fuel s with
    | some (v, r1) =>
      match skipWs r1 with
      | ',' :: r2 =>
        if len then
          match skipWs r2 with
          | ']' :: r3 => some ([v], r3)
          | r2b =>
            match parseElemSeq len fuel r2b with
            | some (xs, rest) => some (v :: xs, rest)
            | none => none
        else
          match parseElemSeq len fuel r2 with
          | some (xs, rest) => some (v :: xs, rest)
          | none => none
      | ']' :: r2 => some ([v], r2)
      | _ => none
    | none => none

end

/-- Parse a complete JSON document: one value, optionally surrounded by
whitespace, and nothing else. -/
def parseJsonText (len : Bool) (s : String) : Option JVal :=
  match parseVal len (s.data.length + 1) s.data with
  | some (v, rest) =>
    match skipWs rest with
    | [] => some v
    | _ => none
  | none => none

/-- Look up a key in the member list of a JSON object. -/
def assocFind : List (String × JVal) → String → Option JVal
  | [], _ => none
  | (k1, v) :: ms, k => if k1 = k then some v else assocFind ms k

/-- Field access on a JSON object value. -/
def jGet : JVal → String → Option JVal
  | .obj ms, k => assocFind ms k
  | _, _ => none

/-- The literal text preceding the argument name in the substitution form
`$util.dynamodb.toDynamoDBJson($ctx.args.NAME)` used by the request
templates of this program. -/
def dynamoPat : List Char := "$util.dynamodb.toDynamoDBJson($ctx.args.".data

/-- Strip an expected leading character sequence, or fail. -/
def stripLead : List Char → List Char → Option (List Char)
  | [], s => some s
  | _ :: _, [] => none
  | p :: ps, c :: cs => if c = p then stripLead ps cs else none

/-- Read a maximal run of letters. -/
def readAlpha : List Char → List Char × List Char
  | [] => ([], [])
  | c :: cs =>
    if c.isAlpha then
      match readAlpha cs with
      | (nm, rest) => (c :: nm, rest)
    else ([], c :: cs)

/-- Look up an argument value by name. -/
def lookupStr : List (String × String) → String → Option String
  | [], _ => none
  | (k1, v) :: r, k => if k1 = k then some v else lookupStr r k

/-- The typed DynamoDB JSON encoding that `$util.dynamodb.toDynamoDBJson`
produces for a GraphQL string argument: an object with the single member
`S` holding the string. -/
def toDynamoDBJsonS (v : String) : List Char :=
  '\x7b' :: '"' :: 'S' :: '"' :: ':' :: '"' :: (escapeChars v.data ++ ['"', '\x7d'])

/-- One pass of template evaluation: copy the template text, replacing each
occurrence of `$util.dynamodb.toDynamoDBJson($ctx.args.NAME)` by the typed
encoding of the value bound to NAME in the incoming field arguments. The
fuel is an upper bound on the number of steps; the callers supply the
template length, which suffices since every step consumes at least one
character. -/
def substArgsF (args : List (String × String)) : Nat → List Char → List Char
  | 0, s => s
  | _ + 1, [] => []
  | fuel + 1, c :: cs =>
    if c = '$' then
      match stripLead dynamoPat (c :: cs) with
      | some r1 =>
        match readAlpha r1 with
        | (nm, r2) =>
          match r2 with
          | ')' :: r3 =>
            match lookupStr args ⟨nm⟩ with
            | some v => toDynamoDBJsonS v ++ substArgsF args fuel r3
            | none => c :: substArgsF args fuel cs
          | _ => c :: substArgsF args fuel cs
      | none => c :: substArgsF args fuel cs
    else c :: substArgsF args fuel cs

/-- Evaluation of a request-mapping template on the incoming field
arguments: the substitution pass over the template text. The result is the
text handed to the storage engine as the request document. -/
def evalRequestTemplate (tpl : String) (args : List (String × String)) : String :=
  ⟨substArgsF args tpl.data.length tpl.data⟩

/-- Evaluation of a response-mapping template on the storage-operation
result. The only template form occurring in this program is the single
expression `$util.toJson($ctx.result)`, which renders the result value as
JSON text; the resolver runtime then parses that text (leniently) as the
field value. Any other template text is outside the embedded fragment. -/
def evalResponseTemplate (tpl : String) (result : JVal) : Option JVal :=
  if tpl = "$util.toJson($ctx.result)" then parseJsonText true (renderJson result) else none

/-- A value usable by a downstream declaration: either a literal string or
a deferred output of an earlier resource, identified by the resource name
and the attribute name. Outputs are placeholders resolved by the
provisioning engine only after the producing resource is created. -/
inductive Ref : Type where
  | lit : String → Ref
  | output : String → String → Ref
deriving DecidableEq, Repr

/-- One attribute declaration of the table (attribute name and type). -/
structure TableAttribute where
  name : String
  type : String
deriving DecidableEq, Repr

/-- The DynamoDB table declaration. -/
structure Table where
  resourceName : String
  hash_key : String
  attributes : List TableAttribute
  read_capacity : Nat
  write_capacity : Nat
deriving DecidableEq, Repr

/-- The table declared by the program: resource name tenants, hash key id
of string type, capacity one read and one write unit. -/
def table : Table :=
  { resourceName := "tenants"
    hash_key := "id"
    attributes := [{ name := "id", type := "S" }]
    read_capacity := 1
    write_capacity := 1 }

/-- The deferred name output of the table. -/
def tableName : Ref := Ref.output "tenants" "name"

/-- The deferred ARN output of the table. -/
def tableArn : Ref := Ref.output "tenants" "arn"

/-- One statement of a trust policy document: the action, the principal
entries (principal type paired with principal identifier) and the effect. -/
structure TrustStatement where
  action : String
  principal : List (String × String)
  effect : String
deriving DecidableEq, Repr

/-- A trust policy document. -/
structure TrustPolicy where
  version : String
  statements : List TrustStatement
deriving DecidableEq, Repr

/-- The IAM role declaration. -/
structure Role where
  resourceName : String
  assume_role_policy : TrustPolicy
deriving DecidableEq, Repr

/-- The role declared by the program: its trust policy has the single
statement allowing sts:AssumeRole to the service principal
appsync.amazonaws.com. -/
def role : Role :=
  { resourceName := "iam-role"
    assume_role_policy :=
      { version := "2012-10-17"
        statements :=
          [{ action := "sts:AssumeRole"
             principal := [("Service", "appsync.amazonaws.com")]
             effect := "Allow" }] } }

/-- The deferred ARN output of the role. -/
def roleArn : Ref := Ref.output "iam-role" "arn"

/-- The deferred name output of the role. -/
def roleName : Ref := Ref.output "iam-role" "name"

/-- One statement of a permission policy document. -/
structure PolicyStatement where
  actions : List String
  effect : String
  resources : List Ref
deriving DecidableEq, Repr

/-- A permission policy document. -/
structure PolicyDoc where
  version : String
  statements : List PolicyStatement
deriving DecidableEq, Repr

/-- The IAM policy declaration. -/
structure Policy where
  resourceName : String
  policy : PolicyDoc
deriving DecidableEq, Repr

/-- The policy declared by the program: a first statement allowing the four
item actions on the table ARN, and a second statement allowing the wildcard
action on the wildcard resource. -/
def policy : Policy :=
  { resourceName := "iam-policy"
    policy :=
      { version := "2012-10-17"
        statements :=
          [{ actions := ["dynamodb:PutItem", "dynamodb:GetItem",
                         "dynamodb:DeleteItem", "dynamodb:UpdateItem"]
             effect := "Allow"
             resources := [tableArn] },
           { actions := ["dynamodb:*"]
             effect := "Allow"
             resources := [Ref.lit "*"] }] } }

/-- The deferred ARN output of the policy. -/
def policyArn : Ref := Ref.output "iam-policy" "arn"

/-- The role-policy attachment declaration. -/
structure RolePolicyAttachment where
  resourceName : String
  role : Ref
  policy_arn : Ref
deriving DecidableEq, Repr

/-- The attachment declared by the program, binding the policy to the role. -/
def attachment : RolePolicyAttachment :=
  { resourceName := "iam-policy-attachment", role := roleName, policy_arn := policyArn }

/-- The embedded GraphQL schema text of the program, byte for byte. -/
def schemaText : String :=
  "\ntype Query \x7b\n        getTenantById(id: ID!): Tenant\n    \x7d\n\n    type Mutation \x7b\n        addTenant(id: ID!, name: String!): Tenant!\n    \x7d\n\n    type Tenant \x7b\n        id: ID!\n        name: String\n    \x7d\n\n    schema \x7b\n        query: Query\n        mutation: Mutation\n    \x7d\n"

/-- The GraphQL API declaration. -/
structure GraphQLApi where
  resourceName : String
  authentication_type : String
  schema : String
deriving DecidableEq, Repr

/-- The API declared by the program: key-based authentication and the
embedded schema. -/
def api : GraphQLApi :=
  { resourceName := "key", authentication_type := "API_KEY", schema := schemaText }

/-- The deferred id output of the API. -/
def apiId : Ref := Ref.output "key" "id"

/-- The API key declaration: parent API reference and an optional expiry,
absent when the declaration sets none. -/
structure ApiKey where
  resourceName : String
  api_id : Ref
  expires : Option String
deriving DecidableEq, Repr

/-- The API key declared by the program. The source passes only the parent
API id; no expiry argument appears, so the expiry is absent. -/
def api_key : ApiKey := { resourceName := "key", api_id := apiId, expires := none }

/-- The random string declaration used for the data source name. -/
structure RandomString where
  resourceName : String
  length : Nat
  special : Bool
  number : Bool
deriving DecidableEq, Repr

/-- The random string declared by the program. -/
def random_string : RandomString :=
  { resourceName := "random-datasource-name", length := 15, special := false, number := false }

/-- The deferred result output of the random string. -/
def randomStringResult : Ref := Ref.output "random-datasource-name" "result"

/-- The data source declaration: parent API, name, type, the backing table
and the authorization role used at invocation time. -/
structure DataSource where
  resourceName : String
  name : Ref
  api_id : Ref
  type : String
  dynamodb_table_name : Ref
  service_role_arn : Ref
deriving DecidableEq, Repr

/-- The data source declared by the program, linking the API to the table
under the role. -/
def data_source : DataSource :=
  { resourceName := "tenants-ds"
    name := randomStringResult
    api_id := apiId
    type := "AMAZON_DYNAMODB"
    dynamodb_table_name := tableName
    service_role_arn := roleArn }

/-- The deferred name output of the data source. -/
def dataSourceName : Ref := Ref.output "tenants-ds" "name"

/-- A resolver declaration: parent API, data source, the bound operation
type and field name, and the request and response mapping template texts. -/
structure Resolver where
  resourceName : String
  api_id : Ref
  data_source : Ref
  type : String
  field : String
  request_template : String
  response_template : String
deriving DecidableEq, Repr

/-- The resolver declared by the program for the getTenantById query, with
its template texts byte for byte. -/
def get_resolver : Resolver :=
  { resourceName := "get-resolver"
    api_id := apiId
    data_source := dataSourceName
    type := "Query"
    field := "getTenantById"
    request_template := "\x7b\n        \"version\": \"2017-02-28\",\n        \"operation\": \"GetItem\",\n        \"key\": \x7b\n            \"id\": $util.dynamodb.toDynamoDBJson($ctx.args.id),\n        \x7d\n    \x7d\n    "
    response_template := "$util.toJson($ctx.result)" }

/-- The resolver declared by the program for the addTenant mutation, with
its template texts byte for byte. -/
def add_resolver : Resolver :=
  { resourceName := "add-resolver"
    api_id := apiId
    data_source := dataSourceName
    type := "Mutation"
    field := "addTenant"
    request_template := "\x7b\n        \"version\" : \"2017-02-28\",\n        \"operation\" : \"PutItem\",\n        \"key\" : \x7b\n            \"id\" : $util.dynamodb.toDynamoDBJson($ctx.args.id)\n        \x7d,\n        \"attributeValues\" : \x7b\n            \"name\": $util.dynamodb.toDynamoDBJson($ctx.args.name)\n        \x7d\n    \x7d\n    "
    response_template := "$util.toJson($ctx.result)" }

/-- The full list of resolver declarations made by the program. -/
def programResolvers : List Resolver := [get_resolver, add_resolver]

/-- A token of the schema-definition-language subset used by the embedded
schema: names, parentheses, braces, colon and the non-null marker. Commas
are insignificant in the language and are skipped by the tokenizer. -/
inductive GToken : Type where
  | ident : String → GToken
  | lparen : GToken
  | rparen : GToken
  | lbrace : GToken
  | rbrace : GToken
  | colon : GToken
  | bang : GToken
deriving DecidableEq, Repr

/-- Characters allowed in a schema-definition-language name. -/
def isNameChar (c : Char) : Bool := c.isAlphanum || c = '_'

/-- Read a maximal run of name characters. -/
def readWhileName : List Char → List Char × List Char
  | [] => ([], [])
  | c :: cs =>
    if isNameChar c then
      match readWhileName cs with
      | (nm, rest) => (c :: nm, rest)
    else ([], c :: cs)

/-- Tokenize a schema-definition-language document (fuel-based; the callers
supply the document length, which suffices since every step consumes at
least one character). Fails on any character outside the subset. -/
def tokenizeSDL : Nat → List Char → Option (List GToken)
  | 0, _ => none
  | _ + 1, [] => some []
  | fuel + 1, c :: cs =>
    if isWs c || c = ',' then tokenizeSDL fuel cs
    else if c = '(' then (tokenizeSDL fuel cs).map (fun ts => GToken.lparen :: ts)
    else if c = ')' then (tokenizeSDL fuel cs).map (fun ts => GToken.rparen :: ts)
    else if c = '\x7b' then (tokenizeSDL fuel cs).map (fun ts => GToken.lbrace :: ts)
    else if c = '\x7d' then (tokenizeSDL fuel cs).map (fun ts => GToken.rbrace :: ts)
    else if c = ':' then (tokenizeSDL fuel cs).map (fun ts => GToken.colon :: ts)
    else if c = '!' then (tokenizeSDL fuel cs).map (fun ts => GToken.bang :: ts)
    else if isNameChar c then
      match readWhileName (c :: cs) with
      | (nm, rest) => (tokenizeSDL fuel rest).map (fun ts => GToken.ident ⟨nm⟩ :: ts)
    else none

/-- An argument declaration of a schema field: name, type, non-null flag. -/
structure GArg where
  name : String
  type : String
  nonNull : Bool
deriving DecidableEq, Repr

/-- A field declaration of a schema type: name, arguments, result type and
its non-null flag. -/
structure GField where
  name : String
  args : List GArg
  type : String
  nonNull : Bool
deriving DecidableEq, Repr

/-- A top-level definition of a schema document: an object type definition
or the schema operation-binding block. -/
inductive GDefn : Type where
  | typeDef : String → List GField → GDefn
  | schemaDef : List (String × String) → GDefn
deriving DecidableEq, Repr

/-- Parse a type reference: a name with an optional non-null marker. -/
def parseTypeRef : List GToken → Option ((String × Bool) × List GToken)
  | GToken.ident nm :: GToken.bang :: ts => some ((nm, true), ts)
  | GToken.ident nm :: ts => some ((nm, false), ts)
  | _ => none

/-- Parse an argument sequence up to the closing parenthesis. -/
def parseArgSeq : Nat → List GToken → Option (List GArg × List GToken)
  | 0, _ => none
  | _ + 1, GToken.rparen :: ts => some ([], ts)
  | fuel + 1, GToken.ident nm :: GToken.colon :: ts =>
    match parseTypeRef ts with
    | some ((ty, nn), ts2) =>
      match parseArgSeq fuel ts2 with
      | some (more, ts3) => some ({ name := nm, type := ty, nonNull := nn } :: more, ts3)
      | none => none
    | none => none
  | _, _ => none

/-- Parse a field sequence up to the closing brace. -/
def parseFieldSeq : Nat → List GToken → Option (List GField × List GToken)
  | 0, _ => none
  | _ + 1, GToken.rbrace :: ts => some ([], ts)
  | fuel + 1, GToken.ident nm :: ts =>
    match (match ts with
           | GToken.lparen :: ts1 => parseArgSeq fuel ts1
           | _ => some ([], ts)) with
    | some (args, ts2) =>
      match ts2 with
      | GToken.colon :: ts3 =>
        match parseTypeRef ts3 with
        | some ((ty, nn), ts4) =>
          match parseFieldSeq fuel ts4 with
          | some (fs, ts5) => some ({ name := nm, args := args, type := ty, nonNull := nn } :: fs, ts5)
          | none => none
        | none => none
      | _ => none
    | none => none
  | _, _ => none

/-- Parse the operation bindings of a schema block up to the closing brace. -/
def parseOpSeq : Nat → List GToken → Option (List (String × String) × List GToken)
  | 0, _ => none
  | _ + 1, GToken.rbrace :: ts => some ([], ts)
  | fuel + 1, GToken.ident op :: GToken.colon :: GToken.ident ty :: ts =>
    match parseOpSeq fuel ts with
    | some (ops, ts2) => some ((op, ty) :: ops, ts2)
    | none => none
  | _, _ => none

/-- Parse a sequence of top-level definitions. -/
def parseDefnSeq : Nat → List GToken → Option (List GDefn)
  | 0, _ => none
  | _ + 1, [] => some []
  | fuel + 1, GToken.ident kw :: ts =>
    if kw = "type" then
      match ts with
      | GToken.ident nm :: GToken.lbrace :: ts1 =>
        match parseFieldSeq fuel ts1 with
        | some (fs, ts2) =>
          match parseDefnSeq fuel ts2 with
          | some ds => some (GDefn.typeDef nm fs :: ds)
          | none => none
        | none => none
      | _ => none
    else if kw = "schema" then
      match ts with
      | GToken.lbrace :: ts1 =>
        match parseOpSeq fuel ts1 with
        | some (ops, ts2) =>
          match parseDefnSeq fuel ts2 with
          | some ds => some (GDefn.schemaDef ops :: ds)
          | none => none
        | none => none
      | _ => none
    else none
  | _, _ => none

/-- Parse a complete schema-definition-language document: tokenize, then
parse the whole token stream as a definition sequence. -/
def parseSDL (s : String) : Option (List GDefn) :=
  match tokenizeSDL (s.data.length + 1) s.data with
  | some ts => parseDefnSeq (ts.length + 1) ts
  | none => none

/-- Static check over the declared policy document: some statement has the
wildcard resource list. -/
def hasWildcardResource (d : PolicyDoc) : Bool :=
  d.statements.any fun st => decide (st.resources = [Ref.lit "*"])

/-- Static check over an API key declaration: the expiry is absent, so the
credential never expires. -/
def isNonExpiring (k : ApiKey) : Bool := k.expires.isNone

/-- The (operationType, fieldName) pair bound by a resolver declaration. -/
def Resolver.binding (r : Resolver) : String × String := (r.type, r.field)

/-- Modelled from the spec: a duplicate-binding check holds of a
declaration list exactly when two resolvers in it bind the same
(operationType, fieldName) pair. -/
def hasDuplicateBinding (rs : List Resolver) : Bool :=
  decide (¬ (rs.map Resolver.binding).Nodup)

/-- The program constructs every resolver declaration unconditionally and
registers it with the provisioning engine; no validation or filtering of
resolver declarations exists anywhere in the source. Submission is
therefore the identity on declaration lists and never rejects. -/
def submittedResolvers (rs : List Resolver) : Option (List Resolver) := some rs

/-- Sample field arguments used to exercise a request template; the
operation named by the produced document does not depend on the argument
values. -/
def sampleArgs : List (String × String) := [("id", "t1"), ("name", "Acme")]

/-- The storage operation named by the request document a template
produces, under the lenient parse of the resolver runtime. -/
def templateOperation (tpl : String) : Option String :=
  match parseJsonText true (evalRequestTemplate tpl sampleArgs) with
  | some d =>
    match jGet d "operation" with
    | some (JVal.str s) => some s
    | _ => none
  | none => none

/-- The storage operations issued by the request templates of the
resolvers the program declares. -/
def declaredResolverOperations : List String :=
  programResolvers.filterMap fun r => templateOperation r.request_template

/-- A scalar attribute value as it appears in a storage result of this
program: the table holds only string attributes, and booleans and null are
included for robustness of the check. -/
def scalarResult : JVal → Bool
  | JVal.str _ => true
  | JVal.jbool _ => true
  | JVal.jnull => true
  | _ => false

/-- A well-formed storage-operation result for this program: an object
(one table item, as the runtime hands it to the response template) whose
attribute values are scalars. -/
def wellFormedResult : JVal → Bool
  | JVal.obj ms => ms.all fun p => scalarResult p.2
  | _ => false

/-- A sample storage result: the tenant item written by the addTenant
request for id t1 and name Acme. -/
def sampleResult : JVal := JVal.obj [("id", JVal.str "t1"), ("name", JVal.str "Acme")]

/-- Dropping whitespace in front of a non-whitespace character is the
identity (helper for the round-trip proofs). -/
theorem skipWs_not_ws (c : Char) (cs : List Char) (h : isWs c = false) :
    skipWs (c :: cs) = c :: cs := by simp [skipWs, h]

/-- Round trip for string bodies: parsing an escaped character sequence
followed by a closing quote recovers the original characters. -/
theorem parseStrBody_escape (cs : List Char) : ∀ rest : List Char,
    parseStrBody (escapeChars cs ++ '"' :: rest) = some (⟨cs⟩, rest) := by
  induction cs with
  | nil =>
    intro rest
    simp only [escapeChars, List.nil_append]
    rw [parseStrBody.eq_def]
    simp
  | cons c cs2 ih =>
    intro rest
    by_cases h1 : c = '"'
    · subst h1
      rw [show escapeChars ('"' :: cs2) = '\\' :: '"' :: escapeChars cs2 from by
        simp [escapeChars, escapeChar]]
      rw [List.cons_append, List.cons_append, parseStrBody.eq_def]
      simp [ih]
    · by_cases h2 : c = '\\'
      · subst h2
        rw [show escapeChars ('\\' :: cs2) = '\\' :: '\\' :: escapeChars cs2 from by
          simp [escapeChars, escapeChar]]
        rw [List.cons_append, List.cons_append, parseStrBody.eq_def]
        simp [ih]
      · by_cases h3 : c = '\n'
        · subst h3
          rw [show escapeChars ('\n' :: cs2) = '\\' :: 'n' :: escapeChars cs2 from by
            simp [escapeChars, escapeChar]]
          rw [List.cons_append, List.cons_append, parseStrBody.eq_def]
          simp [ih]
        · by_cases h4 : c = '\t'
          · subst h4
            rw [show escapeChars ('\t' :: cs2) = '\\' :: 't' :: escapeChars cs2 from by
              simp [escapeChars, escapeChar]]
            rw [List.cons_append, List.cons_append, parseStrBody.eq_def]
            simp [ih]
          · by_cases h5 : c = '\r'
            · subst h5
              rw [show escapeChars ('\r' :: cs2) = '\\' :: 'r' :: escapeChars cs2 from by
                simp [escapeChars, escapeChar]]
              rw [List.cons_append, List.cons_append, parseStrBody.eq_def]
              simp [ih]
            · rw [show escapeChars (c :: cs2) = c :: escapeChars cs2 from by
                simp [escapeChars, escapeChar, h1, h2, h3, h4, h5]]
              rw [List.cons_append, parseStrBody.eq_def]
              simp [h1, h2, ih]

/-- Round trip for scalar values: the parser recovers a rendered scalar
from the front of the input, leaving the remainder untouched. -/
theorem parseVal_scalar (v : JVal) (h : scalarResult v = true) (fuel : Nat) (rest : List Char) :
    parseVal true (fuel + 1) (renderJ v ++ rest) = some (v, rest) := by
  cases v with
  | str s =>
    rw [renderJ, parseVal.eq_def]
    simp [skipWs, isWs, parseStrBody_escape]
  | num i => simp [scalarResult] at h
  | jbool b =>
    cases b with
    | true =>
      rw [renderJ, parseVal.eq_def]
      simp [skipWs, isWs]
    | false =>
      rw [renderJ, parseVal.eq_def]
      simp [skipWs, isWs]
  | jnull =>
    rw [renderJ, parseVal.eq_def]
    simp [skipWs, isWs]
  | arr xs => simp [scalarResult] at h
  | obj ms => simp [scalarResult] at h

/-- A rendered nonempty member list starts with a double quote. -/
theorem renderMems_head (k : String) (v : JVal) (ms2 : List (String × JVal)) :
    ∃ t, renderMems ((k, v) :: ms2) = '"' :: t := by
  cases ms2 with
  | nil =>
    refine ⟨escapeChars k.data ++ '"' :: ':' :: renderJ v, ?_⟩
    rw [renderMems]
    simp
  | cons m2 ms3 =>
    refine ⟨escapeChars k.data ++ '"' :: ':' :: renderJ v ++ ',' :: renderMems (m2 :: ms3), ?_⟩
    rw [renderMems]
    · simp
    · simp

/-- Rendering a member list emits at least one character per member. -/
theorem renderMems_length (ms : List (String × JVal)) : ms.length ≤ (renderMems ms).length := by
  induction ms with
  | nil => simp [renderMems]
  | cons kv ms2 ih =>
    obtain ⟨k, v⟩ := kv
    cases ms2 with
    | nil => simp [renderMems]
    | cons m2 ms3 =>
      rw [renderMems]
      · simp only [List.length_append, List.length_cons]
        simp only [List.length_cons] at ih
        omega
      · simp

/-- Round trip for nonempty member sequences of scalar-valued objects:
parsing the rendered members followed by the closing brace recovers the
member list, given fuel exceeding the member count. -/
theorem parseMemberSeq_render (ms : List (String × JVal)) :
    ∀ fuel : Nat, (∀ p ∈ ms, scalarResult p.2 = true) → ms ≠ [] → ms.length + 1 ≤ fuel →
    ∀ rest : List Char,
      parseMemberSeq true fuel (renderMems ms ++ '\x7d' :: rest) = some (ms, rest) := by
  induction ms with
  | nil =>
    intro fuel h hne hf rest
    exact absurd rfl hne
  | cons kv ms2 ih =>
    intro fuel h hne hf rest
    obtain ⟨k, v⟩ := kv
    have hv : scalarResult v = true := h (k, v) (List.mem_cons_self _ _)
    cases fuel with
    | zero => omega
    | succ f =>
      cases f with
      | zero => simp at hf
      | succ f2 =>
        cases ms2 with
        | nil =>
          rw [renderMems, parseMemberSeq.eq_def]
          simp only [List.cons_append, List.append_assoc, List.nil_append]
          have hpv := parseVal_scalar v hv f2 ('\x7d' :: rest)
          simp [skipWs, isWs, parseStrBody_escape, hpv]
        | cons m2 ms3 =>
          obtain ⟨k2, v2⟩ := m2
          obtain ⟨t, ht⟩ := renderMems_head k2 v2 ms3
          have hih := ih (f2 + 1) (fun p hp => h p (List.mem_cons_of_mem _ hp))
            (List.cons_ne_nil _ _) (by simp only [List.length_cons] at hf ⊢; omega) rest
          rw [ht, List.cons_append] at hih
          rw [renderMems, parseMemberSeq.eq_def]
          · rw [ht]
            simp only [List.cons_append, List.append_assoc, List.nil_append]
            have hpv := parseVal_scalar v hv f2 (',' :: '"' :: (t ++ '\x7d' :: rest))
            simp [skipWs, isWs, parseStrBody_escape, hpv, hih]
          · simp

/-- Round trip for scalar-valued objects at the value level, for any fuel
exceeding the member count by three. -/
theorem parseVal_renderObj (ms : List (String × JVal)) (hsc : ∀ p ∈ ms, scalarResult p.2 = true)
    (fuel : Nat) (hf : ms.length + 3 ≤ fuel) (rest : List Char) :
    parseVal true fuel (renderJ (JVal.obj ms) ++ rest) = some (JVal.obj ms, rest) := by
  cases fuel with
  | zero => omega
  | succ f =>
    cases f with
    | zero => omega
    | succ f2 =>
      rw [renderJ, parseVal.eq_def]
      simp only [List.cons_append, List.append_assoc, List.nil_append]
      cases ms with
      | nil =>
        simp [renderMems, skipWs, isWs, parseMembers.eq_def]
      | cons kv ms2 =>
        obtain ⟨k, v0⟩ := kv
        obtain ⟨t, ht⟩ := renderMems_head k v0 ms2
        have hms := parseMemberSeq_render ((k, v0) :: ms2) f2 hsc (List.cons_ne_nil _ _)
          (by simp only [List.length_cons] at hf ⊢; omega) rest
        rw [ht, List.cons_append] at hms
        rw [ht]
        simp only [List.cons_append]
        simp [skipWs, isWs, parseMembers.eq_def, hms]

/-- Rendering a well-formed storage result and parsing the text back (as
the resolver runtime does) recovers the result exactly. -/
theorem parse_render_wellFormed (v : JVal) (h : wellFormedResult v = true) :
    parseJsonText true (renderJson v) = some v := by
  cases v with
  | str s => simp [wellFormedResult] at h
  | num i => simp [wellFormedResult] at h
  | jbool b => simp [wellFormedResult] at h
  | jnull => simp [wellFormedResult] at h
  | arr xs => simp [wellFormedResult] at h
  | obj ms =>
    have hsc : ∀ p ∈ ms, scalarResult p.2 = true := by
      simpa [wellFormedResult, List.all_eq_true] using h
    have hlen : ms.length + 3 ≤ (renderJ (JVal.obj ms)).length + 1 := by
      rw [renderJ]
      have := renderMems_length ms
      simp only [List.length_cons, List.length_append]
      omega
    have hv := parseVal_renderObj ms hsc ((renderJ (JVal.obj ms)).length + 1) hlen []
    rw [List.append_nil] at hv
    unfold parseJsonText renderJson
    simp [hv, skipWs]

/-- Declaration used by the C4 counterexample: a second resolver binding
the same (operationType, fieldName) pair as the getTenantById resolver. -/
def dupResolver : Resolver := { get_resolver with resourceName := "get-resolver-dup" }

set_option maxRecDepth 40000 in
/-- C1: for the addTenant mutation resolver, evaluating the request-mapping
template on arguments id t1 and name Acme produces a storage-operation
request document (a strict JSON document) containing operation PutItem, the
key with id encoded in the typed format of the storage engine, and the
attribute values with name similarly encoded. -/
theorem addTenant_request_document :
    ∃ d, parseJsonText false
          (evalRequestTemplate add_resolver.request_template [("id", "t1"), ("name", "Acme")]) =
        some d
      ∧ jGet d "operation" = some (JVal.str "PutItem")
      ∧ jGet d "key" = some (JVal.obj [("id", JVal.obj [("S", JVal.str "t1")])])
      ∧ jGet d "attributeValues" = some (JVal.obj [("name", JVal.obj [("S", JVal.str "Acme")])]) :=
  ⟨JVal.obj [("version", JVal.str "2017-02-28"), ("operation", JVal.str "PutItem"),
             ("key", JVal.obj [("id", JVal.obj [("S", JVal.str "t1")])]),
             ("attributeValues", JVal.obj [("name", JVal.obj [("S", JVal.str "Acme")])])],
   by rfl, by rfl, by rfl, by rfl⟩

set_option maxRecDepth 40000 in
/-- C2 counterexample: the text the getTenantById request template produces
on argument id t1 is not a well-formed strict JSON document, because the
template leaves a trailing comma after the single key entry; the strict
parse fails, refuting the claim as stated. -/
theorem getTenantById_request_not_wellformed_strict :
    parseJsonText false (evalRequestTemplate get_resolver.request_template [("id", "t1")]) =
      none := by rfl

set_option maxRecDepth 40000 in
/-- C2 amended: under the trailing-comma-tolerant parse that the resolver
runtime applies, the getTenantById request text yields a document with
operation GetItem, the key with id encoded in the typed format, and no
attributeValues field. -/
theorem getTenantById_request_document_lenient :
    ∃ d, parseJsonText true
          (evalRequestTemplate get_resolver.request_template [("id", "t1")]) = some d
      ∧ jGet d "operation" = some (JVal.str "GetItem")
      ∧ jGet d "key" = some (JVal.obj [("id", JVal.obj [("S", JVal.str "t1")])])
      ∧ jGet d "attributeValues" = none :=
  ⟨JVal.obj [("version", JVal.str "2017-02-28"), ("operation", JVal.str "GetItem"),
             ("key", JVal.obj [("id", JVal.obj [("S", JVal.str "t1")])])],
   by rfl, by rfl, by rfl, by rfl⟩

/-- C3: for every resolver the program declares and every well-formed
storage-operation result, evaluating the response-mapping template on the
result yields the result unchanged: the response template is the identity
transform. -/
theorem resolver_response_identity (r : Resolver) (hr : r ∈ programResolvers)
    (v : JVal) (hv : wellFormedResult v = true) :
    evalResponseTemplate r.response_template v = some v := by
  have hTpl : r.response_template = "$util.toJson($ctx.result)" := by
    simp only [programResolvers, List.mem_cons, List.not_mem_nil, or_false] at hr
    rcases hr with h | h
    · subst h; rfl
    · subst h; rfl
  rw [evalResponseTemplate, hTpl, if_pos rfl]
  exact parse_render_wellFormed v hv

/-- C3 witness: the identity theorem applied to the getTenantById resolver
and the sample tenant item. -/
theorem resolver_response_identity_witness :
    get_resolver ∈ programResolvers ∧ wellFormedResult sampleResult = true ∧
      evalResponseTemplate get_resolver.response_template sampleResult = some sampleResult :=
  ⟨List.mem_cons_self _ _, rfl,
    resolver_response_identity get_resolver (List.mem_cons_self _ _) sampleResult rfl⟩

/-- C4 counterexample: a declaration list containing two resolvers that
bind the same (operationType, fieldName) pair is passed to the
provisioning engine unchanged; the program contains no duplicate-binding
rejection, so such declarations do reach the engine. -/
theorem duplicate_binding_reaches_engine :
    hasDuplicateBinding [get_resolver, dupResolver] = true
    ∧ submittedResolvers [get_resolver, dupResolver] = some [get_resolver, dupResolver] :=
  ⟨by decide, rfl⟩

/-- C4 amended: the program performs no duplicate-binding check of its own;
every resolver declaration it constructs is handed to the provisioning
engine unchanged, and the two resolvers it actually declares bind distinct
(operationType, fieldName) pairs, so no duplicate binding occurs in this
program. -/
theorem program_resolver_bindings_distinct :
    submittedResolvers programResolvers = some programResolvers
    ∧ hasDuplicateBinding programResolvers = false
    ∧ programResolvers.map Resolver.binding =
        [("Query", "getTenantById"), ("Mutation", "addTenant")] :=
  ⟨rfl, by decide, rfl⟩

/-- C5: the declared policy contains a statement whose resource list is
exactly the wildcard, and the static check over the declared policy
document detects it. -/
theorem policy_wildcard_statement_detected :
    hasWildcardResource policy.policy = true
    ∧ ∃ st ∈ policy.policy.statements, st.resources = [Ref.lit "*"] :=
  ⟨by rfl, by decide⟩

/-- C6: the declared API key sets no expiry, and the static check over the
declaration detects it as non-expiring. -/
theorem api_key_nonexpiring :
    api_key.expires = none ∧ isNonExpiring api_key = true := ⟨rfl, rfl⟩

/-- C7: the trust policy of the role has exactly one statement, and its
principal list names exactly one principal type, the service principal
appsync.amazonaws.com. -/
theorem trust_policy_single_principal :
    role.assume_role_policy.statements.map (fun st => st.principal) =
      [[("Service", "appsync.amazonaws.com")]]
    ∧ role.assume_role_policy.statements.length = 1 := ⟨rfl, rfl⟩

set_option maxRecDepth 40000 in
/-- C8: the embedded schema text parses as a valid schema-definition
document with a Query type whose field is getTenantById(id: ID!): Tenant,
a Mutation type whose field is addTenant(id: ID!, name: String!): Tenant!,
a Tenant type with fields id: ID! and name: String, and a schema block
binding query and mutation. -/
theorem schema_document_valid :
    parseSDL api.schema =
      some [GDefn.typeDef "Query"
              [{ name := "getTenantById", args := [{ name := "id", type := "ID", nonNull := true }],
                 type := "Tenant", nonNull := false }],
            GDefn.typeDef "Mutation"
              [{ name := "addTenant",
                 args := [{ name := "id", type := "ID", nonNull := true },
                          { name := "name", type := "String", nonNull := true }],
                 type := "Tenant", nonNull := true }],
            GDefn.typeDef "Tenant"
              [{ name := "id", args := [], type := "ID", nonNull := true },
               { name := "name", args := [], type := "String", nonNull := false }],
            GDefn.schemaDef [("query", "Query"), ("mutation", "Mutation")]] := by rfl

/-- C9: every API-scoped declaration references the id of the single
declared API, both resolvers reference the name of the single declared
data source, and the data source targets the declared table and is
authorized by the ARN of the declared role. -/
theorem resource_references_consistent :
    api_key.api_id = apiId
    ∧ data_source.api_id = apiId
    ∧ get_resolver.api_id = apiId
    ∧ add_resolver.api_id = apiId
    ∧ get_resolver.data_source = dataSourceName
    ∧ add_resolver.data_source = dataSourceName
    ∧ data_source.dynamodb_table_name = tableName
    ∧ data_source.service_role_arn = roleArn
    ∧ apiId = Ref.output api.resourceName "id"
    ∧ tableName = Ref.output table.resourceName "name"
    ∧ roleArn = Ref.output role.resourceName "arn"
    ∧ dataSourceName = Ref.output data_source.resourceName "name" :=
  ⟨rfl, rfl, rfl, rfl, rfl, rfl, rfl, rfl, rfl, rfl, rfl, rfl⟩

set_option maxRecDepth 40000 in
/-- C10: the table-scoped policy statement allows the DeleteItem and
UpdateItem actions although the request templates of the declared
resolvers issue exactly the operations GetItem and PutItem, a strict
subset of the allowed actions. -/
theorem policy_actions_exceed_resolver_operations :
    declaredResolverOperations = ["GetItem", "PutItem"]
    ∧ policy.policy.statements.map (fun st => (st.actions, st.resources)) =
        [(["dynamodb:PutItem", "dynamodb:GetItem", "dynamodb:DeleteItem", "dynamodb:UpdateItem"],
          [tableArn]),
         (["dynamodb:*"], [Ref.lit "*"])]
    ∧ (declaredResolverOperations.map (fun op => "dynamodb:" ++ op)).all
        (fun a => ["dynamodb:PutItem", "dynamodb:GetItem", "dynamodb:DeleteItem",
                   "dynamodb:UpdateItem"].contains a) = true
    ∧ (declaredResolverOperations.map (fun op => "dynamodb:" ++ op)).contains
        "dynamodb:DeleteItem" = false
    ∧ (declaredResolverOperations.map (fun op => "dynamodb:" ++ op)).contains
        "dynamodb:UpdateItem" = false :=
  ⟨by rfl, rfl, by rfl, by rfl, by rfl⟩
